import Mathlib

set_option linter.unusedVariables false
set_option maxRecDepth 8192

/-!
Verification development for the stet correction-ledger service.

The definitions below are a shallow embedding of the Python source:
app/logic.py (canonicalization and the permission evaluator), app/main.py
(the create / facts / history handlers) and app/routes/enforcement.py (the
heartbeat / status / escalation handlers).  The transactional store is
modelled as in-memory lists of rows; every SQL statement of the source is
translated into an explicit list query, keeping the exact WHERE clauses
(in particular keeping which queries are and are not scoped by tenant).
Timestamps are integers (seconds); the float threshold arithmetic of the
drift evaluator is modelled with exact rationals.
-/

namespace Stet

/-- Lifecycle status of a correction (models.py, CorrectionStatus). -/
inductive CorrectionStatus
  | ACTIVE
  | SUPERSEDED
  | REVOKED
deriving DecidableEq, Repr

/-- Class of a correction (models.py, CorrectionClass). -/
inductive CorrectionClass
  | FACT
  | DISCARDABLE
deriving DecidableEq, Repr

/-- Permissions object (models.py, Permissions).  A missing (None) list is
modelled as the empty list: the write path persists model_dump with
exclude_none, and the read path evaluates get(...) or [], so None and []
are indistinguishable to every consumer in the source. -/
structure Permissions where
  readers : List String
  scopes : List String
  deny_list : List String
deriving DecidableEq, Repr

/-- Origin provenance metadata (service / version / environment). -/
structure Origin where
  service : String
  version : String
  environment : String
deriving DecidableEq, Repr

/-- One row of the corrections table.  Column values are taken verbatim from
the INSERT in main.py create_correction. -/
structure Correction where
  correction_id : String
  tenant_id : String
  subject_type : String
  subject_id : String
  field_key : String
  value : String
  cls : CorrectionClass
  status : CorrectionStatus
  supersedes : Option String
  permissions : Permissions
  actor_type : String
  actor_id : String
  idempotency_key : String
  created_at : Int
  origin_service : String
  origin_version : String
  origin_environment : String
deriving DecidableEq, Repr

/-- One row of the idempotency table. -/
structure IdempotencyRecord where
  tenant_id : String
  key : String
  correction_id : String
  payload_hash : String
deriving DecidableEq, Repr

/-- One row of the enforcement_heartbeats table. -/
structure HeartbeatRow where
  tenant_id : String
  system_id : String
  enforced_correction_version : Int
  reported_at : Int
  origin_service : String
  origin_version : String
  origin_environment : String
deriving DecidableEq, Repr

/-- The transactional store: the three tables used by the service. -/
structure Store where
  corrections : List Correction
  idempotency : List IdempotencyRecord
  heartbeats : List HeartbeatRow
deriving DecidableEq, Repr

/-- The empty store. -/
def Store.empty : Store := ⟨[], [], []⟩

/-- Error taxonomy of the service (spec section 7).  The notFound
constructor is part of the taxonomy although, as the proofs below show, the
create handler in main.py never raises it. -/
inductive ApiError
  | invalidRequest (message : String)
  | notFound (message : String)
  | idempotencyConflict
  | concurrentWriteConflict
  | internalError
deriving DecidableEq, Repr

/-- Decidable equality of results, used to evaluate the handlers on
concrete inputs. -/
instance {e a : Type} [DecidableEq e] [DecidableEq a] : DecidableEq (Except e a) := fun x y =>
  match x, y with
  | .ok v, .ok w => if h : v = w then .isTrue (by rw [h]) else .isFalse (by simp [h])
  | .error v, .error w => if h : v = w then .isTrue (by rw [h]) else .isFalse (by simp [h])
  | .ok _, .error _ => .isFalse (by simp)
  | .error _, .ok _ => .isFalse (by simp)

/-- parse_csv (logic.py): None and the empty string give []. Any other
string is split on commas, each piece trimmed, empty pieces dropped. -/
def parseCsv : Option String → List String
  | none => []
  | some v =>
      if v = "" then []
      else ((v.splitOn ",").map String.trim).filter (fun x => decide (x ≠ ""))

/-- is_allowed (logic.py): deny_list first, then readers, then a non-empty
scope intersection. -/
def isAllowed (requester_id : String) (requester_scopes : List String)
    (p : Permissions) : Bool :=
  if requester_id ∈ p.deny_list then false
  else if requester_id ∈ p.readers then true
  else decide (p.scopes ≠ []) && requester_scopes.any (fun s => decide (s ∈ p.scopes))

/-- Create-correction request body (models.py, CreateCorrectionRequest). -/
structure CreateReq where
  subject_type : String
  subject_id : String
  field_key : String
  value : String
  cls : CorrectionClass
  permissions : Permissions
  actor_type : String
  actor_id : String
  idempotency_key : String
  supersedes : Option String
deriving DecidableEq, Repr

/-- JSON string literal (the payloads in this development need no escaping). -/
def jsonString (s : String) : String := "\x22" ++ s ++ "\x22"

/-- JSON array of string literals. -/
def jsonStringList (l : List String) : String :=
  "[" ++ String.intercalate "," (l.map jsonString) ++ "]"

/-- Persisted name of a correction class. -/
def CorrectionClass.toName : CorrectionClass → String
  | .FACT => "FACT"
  | .DISCARDABLE => "DISCARDABLE"

/-- canonical_json_sha256 (logic.py) applied to model_dump of the request:
json.dumps with sorted keys and compact separators.  The sha256 step is
modelled as the canonical serialization itself (a deterministic function of
the payload, equal payloads giving equal fingerprints), since the claims
only compare fingerprints for equality. -/
def canonicalHash (p : CreateReq) : String :=
  "\x7b" ++
  "\x22actor\x22:\x7b\x22id\x22:" ++ jsonString p.actor_id ++
      ",\x22type\x22:" ++ jsonString p.actor_type ++ "\x7d" ++
  ",\x22class\x22:" ++ jsonString p.cls.toName ++
  ",\x22field_key\x22:" ++ jsonString p.field_key ++
  ",\x22idempotency_key\x22:" ++ jsonString p.idempotency_key ++
  ",\x22permissions\x22:\x7b\x22deny_list\x22:" ++ jsonStringList p.permissions.deny_list ++
      ",\x22readers\x22:" ++ jsonStringList p.permissions.readers ++
      ",\x22scopes\x22:" ++ jsonStringList p.permissions.scopes ++ "\x7d" ++
  ",\x22subject\x22:\x7b\x22id\x22:" ++ jsonString p.subject_id ++
      ",\x22type\x22:" ++ jsonString p.subject_type ++ "\x7d" ++
  ",\x22supersedes\x22:" ++ (match p.supersedes with
      | none => "null"
      | some cid => jsonString cid) ++
  ",\x22value\x22:" ++ jsonString p.value ++
  "\x7d"

/-- Rows of the corrections table belonging to one tenant (the WHERE
tenant_id clause shared by every corrections query except the replay fetch). -/
def tenantCorrections (s : Store) (t : String) : List Correction :=
  s.corrections.filter (fun r => decide (r.tenant_id = t))

/-- Rows of the idempotency table belonging to one tenant. -/
def tenantIdempotency (s : Store) (t : String) : List IdempotencyRecord :=
  s.idempotency.filter (fun r => decide (r.tenant_id = t))

/-- Rows of the heartbeats table belonging to one tenant. -/
def tenantHeartbeats (s : Store) (t : String) : List HeartbeatRow :=
  s.heartbeats.filter (fun r => decide (r.tenant_id = t))

/-- SELECT from idempotency WHERE tenant_id and key (main.py). -/
def fetchIdem (s : Store) (t key : String) : Option IdempotencyRecord :=
  (tenantIdempotency s t).find? (fun r => decide (r.key = key))

/-- SELECT from corrections WHERE correction_id only (main.py, the
idempotent-replay fetch): this query is not scoped by tenant_id in the
source. -/
def fetchCorrectionById (s : Store) (cid : String) : Option Correction :=
  s.corrections.find? (fun r => decide (r.correction_id = cid))

/-- SELECT from corrections WHERE tenant_id and correction_id (main.py, the
explicit-supersedes target lookup). -/
def fetchSupersedeTarget (s : Store) (t cid : String) : Option Correction :=
  (tenantCorrections s t).find? (fun r => decide (r.correction_id = cid))

/-- SELECT from corrections WHERE tenant, subject, field_key and
status ACTIVE (main.py, the auto-supersede lookup). -/
def findActiveForField (s : Store) (t stype sid fk : String) : Option Correction :=
  (tenantCorrections s t).find? (fun r =>
    decide (r.subject_type = stype ∧ r.subject_id = sid ∧ r.field_key = fk ∧
      r.status = .ACTIVE))

/-- Row-level effect of the supersede UPDATE: the row matching the tenant
and correction id has its status set to SUPERSEDED, every other row is
unchanged. -/
def flipRow (t cid : String) (r : Correction) : Correction :=
  if r.tenant_id = t ∧ r.correction_id = cid
  then { r with status := .SUPERSEDED } else r

/-- UPDATE corrections SET status SUPERSEDED WHERE tenant_id and
correction_id (main.py). -/
def flipToSuperseded (s : Store) (t cid : String) : Store :=
  { s with corrections := s.corrections.map (flipRow t cid) }

/-- INSERT of a correction row.  Modelled from the spec: the storage schema
is not under src/; spec section 6 declares a partial unique index on
(tenant_id, subject_type, subject_id, field_key) restricted to rows with
status ACTIVE, whose violation surfaces in main.py as the caught
UniqueViolationError (translated to a 409 ConcurrentWriteConflict).  Global
uniqueness of correction_id comes from uuid4 generation and is not
re-checked here. -/
def insertCorrection (s : Store) (c : Correction) : Except ApiError Store :=
  if c.status = .ACTIVE ∧ (tenantCorrections s c.tenant_id).any (fun r =>
      decide (r.subject_type = c.subject_type ∧ r.subject_id = c.subject_id ∧
        r.field_key = c.field_key ∧ r.status = .ACTIVE))
  then .error .concurrentWriteConflict
  else .ok { s with corrections := s.corrections ++ [c] }

/-- Create-correction response body (models.py, CreateCorrectionResponse),
together with the HTTP status used (201 fresh create, 200 idempotent
replay). -/
structure CreateResp where
  correction_id : String
  status : CorrectionStatus
  supersedes : Option String
  created_at : Int
  httpCode : Nat
deriving DecidableEq, Repr

/-- The correction row inserted by create_correction (main.py): values as
in the INSERT statement, status ACTIVE, created_at set to the current
time. -/
def newCorrectionRow (t : String) (p : CreateReq) (newId : String)
    (now : Int) (origin : Origin) (superseded_id : Option String) : Correction :=
  { correction_id := newId, tenant_id := t,
    subject_type := p.subject_type, subject_id := p.subject_id,
    field_key := p.field_key, value := p.value, cls := p.cls,
    status := .ACTIVE, supersedes := superseded_id,
    permissions := p.permissions, actor_type := p.actor_type,
    actor_id := p.actor_id, idempotency_key := p.idempotency_key,
    created_at := now, origin_service := origin.service,
    origin_version := origin.version,
    origin_environment := origin.environment }

/-- Conditional flip step of create_correction (main.py): when a supersede
target was resolved, its status is flipped before the insert; otherwise the
store is left alone. -/
def applySupersede (s : Store) (t : String) : Option String → Store
  | some sid => flipToSuperseded s t sid
  | none => s

/-- POST /v1/corrections handler core (main.py create_correction), run as
one transaction: an error result models a rolled-back transaction, so no
store is returned with it.  newId models uuid4() and now models the
current time; origin models the environment-derived provenance dict. -/
def createCorrection (s : Store) (t : String) (p : CreateReq) (newId : String)
    (now : Int) (origin : Origin) : Except ApiError (CreateResp × Store) :=
  if p.permissions.readers = [] ∧ p.permissions.scopes = [] then
    .error (.invalidRequest "permissions must include readers or scopes")
  else
    let payload_hash := canonicalHash p
    match fetchIdem s t p.idempotency_key with
    | some idem =>
        if idem.payload_hash ≠ payload_hash then .error .idempotencyConflict
        else
          match fetchCorrectionById s idem.correction_id with
          | none => .error .internalError
          | some ex =>
              .ok ({ correction_id := ex.correction_id, status := ex.status,
                     supersedes := ex.supersedes, created_at := ex.created_at,
                     httpCode := 200 }, s)
    | none =>
        let targetRes : Except ApiError (Option String) :=
          match p.supersedes with
          | some cid =>
              match fetchSupersedeTarget s t cid with
              | none => .error (.invalidRequest "Invalid supersedes target")
              | some tgt =>
                  if tgt.status = .ACTIVE then .ok (some tgt.correction_id)
                  else .error (.invalidRequest "Invalid supersedes target")
          | none =>
              .ok ((findActiveForField s t p.subject_type p.subject_id
                p.field_key).map (fun r : Correction => r.correction_id))
        match targetRes with
        | .error e => .error e
        | .ok superseded_id =>
            let s1 := applySupersede s t superseded_id
            let newRow := newCorrectionRow t p newId now origin superseded_id
            match insertCorrection s1 newRow with
            | .error e => .error e
            | .ok s2 =>
                .ok ({ correction_id := newId, status := .ACTIVE,
                       supersedes := superseded_id, created_at := now,
                       httpCode := 201 },
                     { s2 with idempotency := s2.idempotency ++
                        [{ tenant_id := t, key := p.idempotency_key,
                           correction_id := newId,
                           payload_hash := payload_hash }] })

/-- One fact item of the facts response (models.py, FactItem). -/
structure FactItem where
  field_key : String
  value : String
  corrected_at : Int
  correction_id : String
  actor_type : String
  actor_id : String
deriving DecidableEq, Repr

/-- Response row built from a permitted correction (main.py get_facts). -/
def Correction.toFactItem (r : Correction) : FactItem :=
  { field_key := r.field_key, value := r.value, corrected_at := r.created_at,
    correction_id := r.correction_id, actor_type := r.actor_type,
    actor_id := r.actor_id }

/-- GET /v1/facts handler core (main.py get_facts).  The source parses the
field_keys and q query parameters (parse_csv on field_keys) but never uses
either afterwards; the unused parameters and the parsed list are kept here
to mirror that. -/
def getFacts (s : Store) (t subject_type subject_id requester_id : String)
    (requester_scopes field_keys q : Option String) : List FactItem :=
  let scopes_list := parseCsv requester_scopes
  let field_keys_list := parseCsv field_keys
  let rows := (tenantCorrections s t).filter (fun r =>
    decide (r.subject_type = subject_type ∧ r.subject_id = subject_id ∧
      r.status = .ACTIVE ∧ r.cls = .FACT))
  let permitted := rows.filter (fun r => isAllowed requester_id scopes_list r.permissions)
  permitted.map Correction.toFactItem

/-- One history item of the history response (models.py, HistoryItem). -/
structure HistoryItem where
  correction_id : String
  field_key : String
  value : String
  cls : CorrectionClass
  status : CorrectionStatus
  supersedes : Option String
  superseded_by : Option String
  created_at : Int
  actor_type : String
  actor_id : String
deriving DecidableEq, Repr

/-- Insert one row into a list already sorted by created_at descending. -/
def insertByCreatedDesc (r : Correction) : List Correction → List Correction
  | [] => [r]
  | x :: xs =>
      if r.created_at ≤ x.created_at then x :: insertByCreatedDesc r xs
      else r :: x :: xs

/-- ORDER BY created_at DESC (main.py get_history); an insertion sort, with
ties left in an unspecified but deterministic order as in the database. -/
def sortByCreatedDesc : List Correction → List Correction
  | [] => []
  | x :: xs => insertByCreatedDesc x (sortByCreatedDesc xs)

/-- Response row built from a history row (main.py get_history).  The
source never assigns superseded_by, so every returned item carries the
model default None. -/
def Correction.toHistoryItem (r : Correction) : HistoryItem :=
  { correction_id := r.correction_id, field_key := r.field_key,
    value := r.value, cls := r.cls, status := r.status,
    supersedes := r.supersedes, superseded_by := none,
    created_at := r.created_at, actor_type := r.actor_type,
    actor_id := r.actor_id }

/-- GET /v1/history handler core (main.py get_history).  The source parses
requester_scopes (parse_csv) and requires requester_id, but uses neither in
the query or afterwards; both are kept here to mirror that. -/
def getHistory (s : Store) (t subject_type subject_id requester_id : String)
    (requester_scopes : Option String) (field_key : Option String)
    (include_revoked : Bool) : List HistoryItem :=
  let scopes_list := parseCsv requester_scopes
  let rows := (tenantCorrections s t).filter (fun r =>
    decide (r.subject_type = subject_type ∧ r.subject_id = subject_id) &&
    (include_revoked || decide (r.status ≠ .REVOKED)) &&
    (match field_key with
     | none => true
     | some fk => decide (r.field_key = fk)))
  (sortByCreatedDesc rows).map Correction.toHistoryItem

/-- Drift classification of one enforcement system (enforcement.py). -/
inductive DriftStatus
  | OK
  | STALE
  | MISSING
deriving DecidableEq, Repr

/-- Tenant-wide escalation level (enforcement.py). -/
inductive EscalationLevel
  | NONE
  | WARN
  | CRITICAL
deriving DecidableEq, Repr

/-- Heartbeat request body (enforcement.py, EnforcementHeartbeat).  The
pydantic model declares only system_id and enforced_correction_version;
any origin object sent by the caller is an extra field that pydantic
silently drops, so it is carried here as a field the handler never reads. -/
structure HeartbeatReq where
  system_id : String
  enforced_correction_version : Int
  origin : Origin
deriving DecidableEq, Repr

/-- POST /v1/enforcement/heartbeat handler core (enforcement.py heartbeat).
The handler builds origin itself: service is the literal stet-api, version
and environment come from the process environment (envVersion models the
result of os.getenv with its dev default already applied); the caller's
p.origin is ignored.  The reported_at column is absent from the INSERT;
modelled from the spec: the schema is not under src/ and spec section 4.4
states the row is appended with the current timestamp as reported_at, so
the store default is modelled as now. -/
def recordHeartbeat (envVersion envEnvironment : String) (s : Store)
    (t : String) (p : HeartbeatReq) (now : Int) : Except ApiError Store :=
  let origin : Origin :=
    { service := "stet-api", version := envVersion, environment := envEnvironment }
  if origin.service = "" ∨ origin.version = "" then
    .error (.invalidRequest "origin attestation required")
  else
    .ok { s with heartbeats := s.heartbeats ++
      [{ tenant_id := t, system_id := p.system_id,
         enforced_correction_version := p.enforced_correction_version,
         reported_at := now, origin_service := origin.service,
         origin_version := origin.version,
         origin_environment := origin.environment }] }

/-- One item of the status / escalation responses (enforcement.py,
EnforcementStatusItem). -/
structure StatusItem where
  system_id : String
  status : DriftStatus
  enforced_correction_version : Option Int
  reported_at : Option Int
deriving DecidableEq, Repr

/-- _evaluate_status (enforcement.py): OK when the age of the heartbeat is
within the threshold, STALE otherwise.  The float threshold arithmetic is
modelled with exact rationals. -/
def evaluateDrift (now reported_at : Int) (threshold_seconds : ℚ) : DriftStatus :=
  if ((now - reported_at : Int) : ℚ) ≤ threshold_seconds then .OK else .STALE

/-- SELECT most recent heartbeat of one system (ORDER BY reported_at DESC
LIMIT 1 in enforcement.py); ties are broken deterministically by keeping
the earlier row, matching the unspecified tie order of the database. -/
def latestHeartbeat (s : Store) (t system_id : String) : Option HeartbeatRow :=
  ((tenantHeartbeats s t).filter (fun h => decide (h.system_id = system_id))).foldl
    (fun acc h => match acc with
      | none => some h
      | some a => if a.reported_at < h.reported_at then some h else some a)
    none

/-- Distinct system ids in first-occurrence order (DISTINCT ON (system_id)
in enforcement.py; the database orders by system_id, an ordering no claim
depends on). -/
def distinctSystemIds (l : List String) : List String :=
  l.foldl (fun acc x => if x ∈ acc then acc else acc ++ [x]) []

/-- Build a status item from the most recent heartbeat of a system. -/
def HeartbeatRow.toStatusItem (h : HeartbeatRow) (now : Int)
    (threshold : ℚ) : StatusItem :=
  { system_id := h.system_id, status := evaluateDrift now h.reported_at threshold,
    enforced_correction_version := some h.enforced_correction_version,
    reported_at := some h.reported_at }

/-- The per-system status list computed identically by both the status and
the escalation routes (enforcement.py): one item when a system_id is given
(MISSING when that system never reported), otherwise one item per system
that has ever reported for the tenant. -/
def driftSystems (s : Store) (t : String) (system_id : Option String)
    (now : Int) (threshold : ℚ) : List StatusItem :=
  match system_id with
  | some sid =>
      match latestHeartbeat s t sid with
      | some h => [h.toStatusItem now threshold]
      | none => [{ system_id := sid, status := .MISSING,
                   enforced_correction_version := none, reported_at := none }]
  | none =>
      (distinctSystemIds ((tenantHeartbeats s t).map (fun h => h.system_id))).filterMap
        (fun sid => (latestHeartbeat s t sid).map
          (fun h => h.toStatusItem now threshold))

/-- GET /v1/enforcement/status handler core (enforcement.py status):
threshold is interval times grace multiplier. -/
def statusSystems (s : Store) (t : String) (system_id : Option String)
    (now : Int) (intervalSeconds : Int) (graceMultiplier : ℚ) : List StatusItem :=
  driftSystems s t system_id now ((intervalSeconds : ℚ) * graceMultiplier)

/-- Summary counters of the escalation response (enforcement.py,
EnforcementEscalationSummary). -/
structure EscalationSummary where
  total_systems : Nat
  ok : Nat
  stale : Nat
  missing : Nat
deriving DecidableEq, Repr

/-- Escalation response (enforcement.py, EnforcementEscalationResponse). -/
structure EscalationResp where
  tenant_id : String
  escalation : EscalationLevel
  summary : EscalationSummary
  affected_systems : List StatusItem
deriving DecidableEq, Repr

/-- GET /v1/enforcement/escalation handler core (enforcement.py escalation):
per-status counts over the systems list, CRITICAL when any system is
MISSING, else WARN when any is STALE, else NONE; affected_systems keeps the
systems whose status is not OK. -/
def escalationResponse (s : Store) (t : String) (system_id : Option String)
    (now : Int) (intervalSeconds : Int) (graceMultiplier : ℚ) : EscalationResp :=
  let systems := driftSystems s t system_id now ((intervalSeconds : ℚ) * graceMultiplier)
  let okCount := systems.countP (fun x => decide (x.status = .OK))
  let staleCount := systems.countP (fun x => decide (x.status = .STALE))
  let missingCount := systems.countP (fun x => decide (x.status = .MISSING))
  let level : EscalationLevel :=
    if missingCount > 0 then .CRITICAL
    else if staleCount > 0 then .WARN
    else .NONE
  { tenant_id := t, escalation := level,
    summary := { total_systems := systems.length, ok := okCount,
                 stale := staleCount, missing := missingCount },
    affected_systems := systems.filter (fun x => decide (x.status ≠ .OK)) }

/-- Two correction rows violate the critical invariant when they share
(tenant_id, subject, field_key) and are both ACTIVE; NoTwoActive says they
do not. -/
def NoTwoActive (r1 r2 : Correction) : Prop :=
  r1.tenant_id = r2.tenant_id → r1.subject_type = r2.subject_type →
  r1.subject_id = r2.subject_id → r1.field_key = r2.field_key →
  r1.status = .ACTIVE → r2.status = .ACTIVE → False

instance : DecidableRel NoTwoActive := fun _ _ => by
  unfold NoTwoActive; infer_instance

/-- The critical invariant (spec section 3): at most one correction is in
ACTIVE status for a given (tenant_id, subject, field_key): no two rows of
the table, at distinct positions, are both ACTIVE for the same key. -/
def uniqueActive (s : Store) : Prop :=
  s.corrections.Pairwise NoTwoActive

instance (s : Store) : Decidable (uniqueActive s) := by
  unfold uniqueActive; infer_instance

/-- Referential well-formedness of a store with respect to one tenant:
correction ids identify rows uniquely, and every idempotency record of the
tenant references a correction row of the same tenant.  The create path
establishes both (ids are fresh uuids and the record is inserted in the
same transaction as its correction). -/
def wfStore (t : String) (s : Store) : Prop :=
  (∀ r1 ∈ s.corrections, ∀ r2 ∈ s.corrections,
    r1.correction_id = r2.correction_id → r1 = r2) ∧
  (∀ i ∈ s.idempotency, i.tenant_id = t →
    ∃ r ∈ s.corrections, r.correction_id = i.correction_id ∧ r.tenant_id = t)

instance (t : String) (s : Store) : Decidable (wfStore t s) := by
  unfold wfStore; infer_instance

/-!  Concrete fixtures used by witnesses and counterexamples. -/

/-- Environment-derived origin with the default values of main.py. -/
def fxOrigin : Origin := ⟨"stet-api", "dev", "local"⟩

/-- A FACT correction for field name, readable by alice. -/
def fxFactName : Correction :=
  { correction_id := "cn", tenant_id := "tenantA", subject_type := "user",
    subject_id := "u1", field_key := "name", value := "Ada", cls := .FACT,
    status := .ACTIVE, supersedes := none,
    permissions := ⟨["alice"], [], []⟩, actor_type := "system",
    actor_id := "crm", idempotency_key := "kn", created_at := 1,
    origin_service := "stet-api", origin_version := "dev",
    origin_environment := "local" }

/-- A FACT correction for field email, readable by alice. -/
def fxFactEmail : Correction :=
  { fxFactName with
    correction_id := "ce", field_key := "email",
    value := "ada@example.com", idempotency_key := "ke", created_at := 2 }

/-- Store holding the two facts above. -/
def fxFactsStore : Store := ⟨[fxFactName, fxFactEmail], [], []⟩

/-- A superseded correction readable by alice. -/
def fxHist1 : Correction :=
  { fxFactName with
    correction_id := "c1", field_key := "status",
    value := "active", status := .SUPERSEDED, idempotency_key := "k1",
    created_at := 1 }

/-- The ACTIVE successor of fxHist1, with alice on the deny list. -/
def fxHist2 : Correction :=
  { fxHist1 with
    correction_id := "c2", value := "cancelled",
    status := .ACTIVE, supersedes := some "c1",
    permissions := ⟨["bob"], [], ["alice"]⟩, idempotency_key := "k2",
    created_at := 2 }

/-- Store with a denied successor: alice may read c1 but not c2. -/
def fxHistStore : Store := ⟨[fxHist1, fxHist2], [], []⟩

/-- Same successor but readable by alice. -/
def fxHist2R : Correction := { fxHist2 with permissions := ⟨["alice"], [], []⟩ }

/-- Store whose whole chain is readable by alice. -/
def fxHistStoreR : Store := ⟨[fxHist1, fxHist2R], [], []⟩

/-- Heartbeat request whose wire origin is entirely empty. -/
def fxHbReqBadOrigin : HeartbeatReq := ⟨"sys1", 5, ⟨"", "", ""⟩⟩

/-- Store holding one heartbeat of tenantA reported at time 0. -/
def fxHbStore : Store :=
  ⟨[], [], [⟨"tenantA", "sys1", 5, 0, "stet-api", "dev", "local"⟩]⟩

/-!  Claim theorems. -/

/-- C4: GetFacts returns exactly the queried subject's corrections of the
tenant that are ACTIVE, of class FACT and pass is_allowed for the
requester; and the deny list is evaluated before readers and scopes, so a
requester on the deny list is never allowed, even when also listed among
the readers. -/
theorem facts_projection_permission
    (s : Store) (t stype sid rid : String)
    (scopesCsv fieldKeysCsv q : Option String) (item : FactItem) :
    (item ∈ getFacts s t stype sid rid scopesCsv fieldKeysCsv q ↔
      ∃ r ∈ s.corrections, r.tenant_id = t ∧ r.subject_type = stype ∧
        r.subject_id = sid ∧ r.status = .ACTIVE ∧ r.cls = .FACT ∧
        isAllowed rid (parseCsv scopesCsv) r.permissions = true ∧
        item = r.toFactItem) ∧
    (∀ (p : Permissions) (scopes : List String), rid ∈ p.deny_list →
      isAllowed rid scopes p = false) := by
  constructor
  · simp only [getFacts, tenantCorrections, List.mem_map, List.mem_filter,
      decide_eq_true_eq]
    constructor
    · rintro ⟨r, ⟨⟨⟨hr, ht⟩, h1, h2, h3, h4⟩, hall⟩, hitem⟩
      exact ⟨r, hr, ht, h1, h2, h3, h4, hall, hitem.symm⟩
    · rintro ⟨r, hr, ht, h1, h2, h3, h4, hall, hitem⟩
      exact ⟨r, ⟨⟨⟨hr, ht⟩, h1, h2, h3, h4⟩, hall⟩, hitem.symm⟩
  · intro p scopes hd
    simp [isAllowed, hd]

/-- C4 witness: on the concrete store, the name fact is returned to alice,
and a requester on the deny list is refused even though also a reader. -/
theorem facts_projection_permission_witness :
    (fxFactName.toFactItem ∈
      getFacts fxFactsStore "tenantA" "user" "u1" "alice" none none none) ∧
    ("eve" ∈ Permissions.deny_list ⟨["eve"], [], ["eve"]⟩) ∧
    isAllowed "eve" ["support"] ⟨["eve"], [], ["eve"]⟩ = false := by
  refine ⟨?_, by decide, ?_⟩
  · exact (facts_projection_permission fxFactsStore "tenantA" "user" "u1"
      "alice" none none none fxFactName.toFactItem).1.mpr
      ⟨fxFactName, by decide, by decide, by decide, by decide, by decide,
        by decide, by decide, by decide⟩
  · exact (facts_projection_permission fxFactsStore "tenantA" "user" "u1"
      "eve" none none none fxFactName.toFactItem).2 _ _ (by decide)

/-- C7 divergence, evaluated: get_facts parses its field_keys allow-list
and q parameters but never applies them: with an allow-list of only name
and a q that matches nothing, the email fact is still returned. -/
theorem facts_filters_ignored_eval :
    getFacts fxFactsStore "tenantA" "user" "u1" "alice" none
        (some "name") (some "zzz") =
      [fxFactName.toFactItem, fxFactEmail.toFactItem] ∧
    fxFactEmail.field_key ≠ "name" := by
  constructor
  · decide
  · decide

/-- C3 divergence, evaluated: get_history surfaces the correction that
denies alice (no permission filter is applied), and superseded_by is the
model default None even when a permitted item supersedes the row. -/
theorem history_divergence_eval :
    getHistory fxHistStore "tenantA" "user" "u1" "alice" none none false =
      [fxHist2.toHistoryItem, fxHist1.toHistoryItem] ∧
    isAllowed "alice" [] fxHist2.permissions = false ∧
    getHistory fxHistStoreR "tenantA" "user" "u1" "alice" none none false =
      [fxHist2R.toHistoryItem, fxHist1.toHistoryItem] ∧
    isAllowed "alice" [] fxHist2R.permissions = true ∧
    fxHist2R.supersedes = some fxHist1.correction_id ∧
    fxHist1.toHistoryItem.superseded_by = none := by
  refine ⟨by decide, by decide, by decide, by decide, by decide, by decide⟩

/-- C9 counterexample: a heartbeat whose wire origin has an empty service
and version is not rejected: the handler ignores the request origin and
succeeds, appending a row with the environment-derived origin. -/
theorem heartbeat_origin_cex :
    fxHbReqBadOrigin.origin.service = "" ∧
    fxHbReqBadOrigin.origin.version = "" ∧
    recordHeartbeat "dev" "local" Store.empty "tenantA" fxHbReqBadOrigin 100 =
      .ok ⟨[], [], [⟨"tenantA", "sys1", 5, 100, "stet-api", "dev", "local"⟩]⟩ := by
  refine ⟨by decide, by decide, by decide⟩

/-- C9 amended: record_heartbeat ignores the request origin entirely; it
fails with InvalidRequest (origin attestation required) exactly when the
environment-derived version is empty (the service component is the literal
stet-api, never empty), and otherwise appends exactly one heartbeat row
carrying the current timestamp as reported_at, leaving all prior rows in
place. -/
theorem heartbeat_record_behavior (envV envE : String) (s : Store)
    (t : String) (p : HeartbeatReq) (now : Int) :
    (envV = "" → recordHeartbeat envV envE s t p now =
      .error (.invalidRequest "origin attestation required")) ∧
    (envV ≠ "" → recordHeartbeat envV envE s t p now =
      .ok { s with heartbeats := s.heartbeats ++
        [⟨t, p.system_id, p.enforced_correction_version, now,
          "stet-api", envV, envE⟩] }) := by
  constructor <;> intro h <;> simp [recordHeartbeat, h]

/-- C9 amended witness: with a non-empty environment version the heartbeat
is appended after the existing rows. -/
theorem heartbeat_record_behavior_witness :
    ("dev" : String) ≠ "" ∧
    recordHeartbeat "dev" "local" fxHbStore "tenantB" ⟨"sysB", 7, fxOrigin⟩ 50 =
      .ok ⟨[], [], [⟨"tenantA", "sys1", 5, 0, "stet-api", "dev", "local"⟩,
                    ⟨"tenantB", "sysB", 7, 50, "stet-api", "dev", "local"⟩]⟩ := by
  refine ⟨by decide, ?_⟩
  rw [(heartbeat_record_behavior "dev" "local" fxHbStore "tenantB"
    ⟨"sysB", 7, fxOrigin⟩ 50).2 (by decide)]
  rfl

/-- C10: for a tenant with no heartbeat rows, tenant-wide status is the
empty list and tenant-wide escalation is NONE with all-zero summary counts
and no affected systems. -/
theorem empty_tenant_escalation (s : Store) (t : String) (now iv : Int)
    (gm : ℚ) (h : tenantHeartbeats s t = []) :
    statusSystems s t none now iv gm = [] ∧
    escalationResponse s t none now iv gm =
      { tenant_id := t, escalation := .NONE,
        summary := { total_systems := 0, ok := 0, stale := 0, missing := 0 },
        affected_systems := [] } := by
  constructor <;>
    simp [statusSystems, escalationResponse, driftSystems, h, distinctSystemIds]

/-- C10 witness: tenantB has no heartbeats in the concrete store (which
does hold a heartbeat of tenantA), and its tenant-wide escalation is NONE. -/
theorem empty_tenant_escalation_witness :
    tenantHeartbeats fxHbStore "tenantB" = [] ∧
    statusSystems fxHbStore "tenantB" none 100 60 2 = [] ∧
    escalationResponse fxHbStore "tenantB" none 100 60 2 =
      { tenant_id := "tenantB", escalation := .NONE,
        summary := { total_systems := 0, ok := 0, stale := 0, missing := 0 },
        affected_systems := [] } := by
  refine ⟨by decide, ?_⟩
  have h := empty_tenant_escalation fxHbStore "tenantB" 100 60 2 (by decide)
  exact h

/-- C8: a system queried by id that never reported is MISSING; one with a
most recent heartbeat is OK exactly when its age is within interval times
grace multiplier, else STALE; the escalation level is CRITICAL exactly when
some system is MISSING, WARN exactly when none is MISSING but some is
STALE, NONE exactly when all are OK; and affected_systems holds exactly
the non-OK systems. -/
theorem drift_escalation_rules (s : Store) (t sid : String) (q : Option String)
    (now iv : Int) (gm : ℚ) :
    (latestHeartbeat s t sid = none →
      driftSystems s t (some sid) now ((iv : ℚ) * gm) =
        [{ system_id := sid, status := .MISSING,
           enforced_correction_version := none, reported_at := none }]) ∧
    (∀ h, latestHeartbeat s t sid = some h →
      driftSystems s t (some sid) now ((iv : ℚ) * gm) =
        [{ system_id := h.system_id,
           status := if ((now - h.reported_at : Int) : ℚ) ≤ (iv : ℚ) * gm
                     then .OK else .STALE,
           enforced_correction_version := some h.enforced_correction_version,
           reported_at := some h.reported_at }]) ∧
    ((escalationResponse s t q now iv gm).escalation = .CRITICAL ↔
      ∃ x ∈ driftSystems s t q now ((iv : ℚ) * gm), x.status = .MISSING) ∧
    ((escalationResponse s t q now iv gm).escalation = .WARN ↔
      (¬ ∃ x ∈ driftSystems s t q now ((iv : ℚ) * gm), x.status = .MISSING) ∧
      ∃ x ∈ driftSystems s t q now ((iv : ℚ) * gm), x.status = .STALE) ∧
    ((escalationResponse s t q now iv gm).escalation = .NONE ↔
      ∀ x ∈ driftSystems s t q now ((iv : ℚ) * gm), x.status = .OK) ∧
    (∀ x, x ∈ (escalationResponse s t q now iv gm).affected_systems ↔
      x ∈ driftSystems s t q now ((iv : ℚ) * gm) ∧ x.status ≠ .OK) := by
  have hproj : ∀ (l : List StatusItem),
      (let okCount := l.countP (fun x => decide (x.status = .OK))
       let staleCount := l.countP (fun x => decide (x.status = .STALE))
       let missingCount := l.countP (fun x => decide (x.status = .MISSING))
       True) := fun _ => trivial
  refine ⟨?_, ?_, ?_, ?_, ?_, ?_⟩
  · intro h
    simp [driftSystems, h]
  · intro hb h
    simp [driftSystems, h, HeartbeatRow.toStatusItem, evaluateDrift]
  · simp only [escalationResponse]
    generalize driftSystems s t q now ((iv : ℚ) * gm) = l
    have hmIff : (l.countP (fun x => decide (x.status = .MISSING)) > 0) ↔
        (∃ x ∈ l, x.status = .MISSING) := by
      rw [gt_iff_lt, List.countP_pos_iff]
      simp
    by_cases hm : ∃ x ∈ l, x.status = .MISSING
    · rw [if_pos (hmIff.mpr hm)]
      simpa using hm
    · rw [if_neg (fun hc => hm (hmIff.mp hc))]
      refine iff_of_false ?_ hm
      split <;> simp
  · simp only [escalationResponse]
    generalize driftSystems s t q now ((iv : ℚ) * gm) = l
    have hmIff : (l.countP (fun x => decide (x.status = .MISSING)) > 0) ↔
        (∃ x ∈ l, x.status = .MISSING) := by
      rw [gt_iff_lt, List.countP_pos_iff]
      simp
    have hsIff : (l.countP (fun x => decide (x.status = .STALE)) > 0) ↔
        (∃ x ∈ l, x.status = .STALE) := by
      rw [gt_iff_lt, List.countP_pos_iff]
      simp
    by_cases hm : ∃ x ∈ l, x.status = .MISSING
    · rw [if_pos (hmIff.mpr hm)]
      exact iff_of_false (by simp) (fun hc => hc.1 hm)
    · rw [if_neg (fun hc => hm (hmIff.mp hc))]
      by_cases hs : ∃ x ∈ l, x.status = .STALE
      · rw [if_pos (hsIff.mpr hs)]
        exact iff_of_true rfl ⟨hm, hs⟩
      · rw [if_neg (fun hc => hs (hsIff.mp hc))]
        exact iff_of_false (by simp) (fun hc => hs hc.2)
  · simp only [escalationResponse]
    generalize driftSystems s t q now ((iv : ℚ) * gm) = l
    have hmIff : (l.countP (fun x => decide (x.status = .MISSING)) > 0) ↔
        (∃ x ∈ l, x.status = .MISSING) := by
      rw [gt_iff_lt, List.countP_pos_iff]
      simp
    have hsIff : (l.countP (fun x => decide (x.status = .STALE)) > 0) ↔
        (∃ x ∈ l, x.status = .STALE) := by
      rw [gt_iff_lt, List.countP_pos_iff]
      simp
    by_cases hm : ∃ x ∈ l, x.status = .MISSING
    · rw [if_pos (hmIff.mpr hm)]
      refine iff_of_false (by simp) (fun hall => ?_)
      obtain ⟨x, hx, hxs⟩ := hm
      have hok := (hall x hx).symm.trans hxs
      exact absurd hok (by simp)
    · rw [if_neg (fun hc => hm (hmIff.mp hc))]
      by_cases hs : ∃ x ∈ l, x.status = .STALE
      · rw [if_pos (hsIff.mpr hs)]
        refine iff_of_false (by simp) (fun hall => ?_)
        obtain ⟨x, hx, hxs⟩ := hs
        have hok := (hall x hx).symm.trans hxs
        exact absurd hok (by simp)
      · rw [if_neg (fun hc => hs (hsIff.mp hc))]
        refine iff_of_true rfl (fun x hx => ?_)
        cases hx2 : x.status
        · rfl
        · exact absurd ⟨x, hx, hx2⟩ hs
        · exact absurd ⟨x, hx, hx2⟩ hm
  · intro x
    simp [escalationResponse, List.mem_filter]

/-- C8 witness: on the concrete store, a system that never reported is
classified MISSING by the id-scoped query, and a heartbeat aged 100 seconds
against a threshold of 60 times 2 is OK. -/
theorem drift_escalation_rules_witness :
    latestHeartbeat fxHbStore "tenantA" "ghost" = none ∧
    driftSystems fxHbStore "tenantA" (some "ghost") 100 (((60 : Int) : ℚ) * 2) =
      [{ system_id := "ghost", status := .MISSING,
         enforced_correction_version := none, reported_at := none }] ∧
    driftSystems fxHbStore "tenantA" (some "sys1") 100 (((60 : Int) : ℚ) * 2) =
      [{ system_id := "sys1", status := .OK,
         enforced_correction_version := some 5, reported_at := some 0 }] := by
  have h1 := (drift_escalation_rules fxHbStore "tenantA" "ghost" none 100 60 2).1
  have h2 := (drift_escalation_rules fxHbStore "tenantA" "sys1" none 100 60 2).2.1
    ⟨"tenantA", "sys1", 5, 0, "stet-api", "dev", "local"⟩
  refine ⟨by decide, h1 (by decide), ?_⟩
  rw [h2 (by decide)]
  norm_num

/-- Store component bookkeeping of a successful insert: the new row is
appended and the other tables are untouched. -/
theorem insertCorrection_ok_parts {s : Store} {c : Correction} {s2 : Store}
    (h : insertCorrection s c = .ok s2) :
    s2.idempotency = s.idempotency ∧ s2.heartbeats = s.heartbeats ∧
    s2.corrections = s.corrections ++ [c] := by
  unfold insertCorrection at h
  split at h
  · simp at h
  · rw [Except.ok.injEq] at h
    subst h
    exact ⟨rfl, rfl, rfl⟩

/-- The conditional flip step touches only the corrections table. -/
theorem applySupersede_parts (s : Store) (t : String) (o : Option String) :
    (applySupersede s t o).idempotency = s.idempotency ∧
    (applySupersede s t o).heartbeats = s.heartbeats := by
  cases o <;> exact ⟨rfl, rfl⟩

/-- First correction request: field status with value active. -/
def fxReqA : CreateReq :=
  { subject_type := "user", subject_id := "u1", field_key := "status",
    value := "active", cls := .FACT, permissions := ⟨["alice"], [], []⟩,
    actor_type := "system", actor_id := "crm", idempotency_key := "kA",
    supersedes := none }

/-- Second request for the same field under a fresh idempotency key. -/
def fxReqB : CreateReq :=
  { fxReqA with
    value := "cancelled", idempotency_key := "kB" }

/-- Run one create call against tenantA and keep the resulting store (the
calls below are all proved successful, so the fallback arm is never
taken). -/
def fxStep (s : Store) (p : CreateReq) (nid : String) (now : Int) : Store :=
  match createCorrection s "tenantA" p nid now fxOrigin with
  | .ok x => x.2
  | .error _ => s

/-- Store after creating fxReqA. -/
def fxReplayStore1 : Store := fxStep Store.empty fxReqA "c1" 10

/-- Store after fxReqB auto-superseded the first correction. -/
def fxReplayStore2 : Store := fxStep fxReplayStore1 fxReqB "c2" 20

/-- C2 counterexample: after an intervening auto-supersede under a fresh
key, replaying the first request (same tenant, key and payload) answers
200 with the correction's current status SUPERSEDED, not the original
response's status ACTIVE: the replayed response is not identical to the
original one. -/
theorem idempotent_replay_status_cex :
    (createCorrection Store.empty "tenantA" fxReqA "c1" 10 fxOrigin).map
        (fun x => x.1) =
      .ok { correction_id := "c1", status := .ACTIVE, supersedes := none,
            created_at := 10, httpCode := 201 } ∧
    (createCorrection fxReplayStore1 "tenantA" fxReqB "c2" 20 fxOrigin).map
        (fun x => x.1) =
      .ok { correction_id := "c2", status := .ACTIVE, supersedes := some "c1",
            created_at := 20, httpCode := 201 } ∧
    (createCorrection fxReplayStore2 "tenantA" fxReqA "c3" 30 fxOrigin).map
        (fun x => x.1) =
      .ok { correction_id := "c1", status := .SUPERSEDED, supersedes := none,
            created_at := 10, httpCode := 200 } ∧
    CorrectionStatus.SUPERSEDED ≠ CorrectionStatus.ACTIVE := by
  refine ⟨by decide, by decide, by decide, by decide⟩

/-- C2 amended: under an existing idempotency record for the same tenant
and key (and a payload passing the permissions precondition), a differing
canonical fingerprint is rejected with IdempotencyConflict and an equal
fingerprint replays with 200 the referenced correction's current stored
state: its id, supersedes and created_at (identical to the original
response) and its current status (which may have changed to SUPERSEDED
since); the store is returned unchanged, so no correction row is created.
In every successful create the idempotency table is only ever appended to:
no existing record is mutated or removed. -/
theorem idempotent_replay_behavior (s : Store) (t : String) (p : CreateReq)
    (nid : String) (now : Int) (org : Origin) :
    (∀ idem, fetchIdem s t p.idempotency_key = some idem →
      ¬(p.permissions.readers = [] ∧ p.permissions.scopes = []) →
      (idem.payload_hash ≠ canonicalHash p →
        createCorrection s t p nid now org = .error .idempotencyConflict) ∧
      (∀ ex, idem.payload_hash = canonicalHash p →
        fetchCorrectionById s idem.correction_id = some ex →
        createCorrection s t p nid now org =
          .ok ({ correction_id := ex.correction_id, status := ex.status,
                 supersedes := ex.supersedes, created_at := ex.created_at,
                 httpCode := 200 }, s))) ∧
    (∀ r s2, createCorrection s t p nid now org = .ok (r, s2) →
      ∃ tail, s2.idempotency = s.idempotency ++ tail) := by
  constructor
  · intro idem hidem hperm
    constructor
    · intro hne
      simp only [createCorrection, if_neg hperm, hidem]
      rw [if_pos hne]
    · intro ex heq hex
      simp only [createCorrection, if_neg hperm, hidem, hex]
      rw [if_neg (fun hc => hc heq)]
  · intro r s2 hok
    simp only [createCorrection] at hok
    split at hok
    · simp at hok
    · split at hok
      case _ idem _ =>
        split at hok
        · simp at hok
        · split at hok
          · simp at hok
          · rw [Except.ok.injEq, Prod.mk.injEq] at hok
            obtain ⟨-, h2⟩ := hok
            subst h2
            exact ⟨[], by simp⟩
      case _ =>
        split at hok
        · simp at hok
        · split at hok
          · simp at hok
          case _ s2x hins =>
            rw [Except.ok.injEq, Prod.mk.injEq] at hok
            obtain ⟨-, h2⟩ := hok
            subst h2
            refine ⟨[{ tenant_id := t, key := p.idempotency_key, correction_id := nid, payload_hash := canonicalHash p }], ?_⟩
            have hparts := insertCorrection_ok_parts hins
            show s2x.idempotency ++ _ = _
            rw [hparts.1]
            congr 1
            exact (applySupersede_parts _ _ _).1

/-- C2 amended witness: replaying fxReqA on the concrete store hits the
stored record with an equal fingerprint and returns the referenced
correction unchanged, leaving the store as it was. -/
theorem idempotent_replay_behavior_witness :
    (∃ idem, fetchIdem fxReplayStore2 "tenantA" fxReqA.idempotency_key = some idem ∧
      idem.payload_hash = canonicalHash fxReqA) ∧
    createCorrection fxReplayStore2 "tenantA" fxReqA "c3" 30 fxOrigin =
      .ok ({ correction_id := "c1", status := .SUPERSEDED, supersedes := none,
             created_at := 10, httpCode := 200 }, fxReplayStore2) := by
  have happ := ((idempotent_replay_behavior fxReplayStore2 "tenantA" fxReqA
      "c3" 30 fxOrigin).1
    ⟨"tenantA", "kA", "c1", canonicalHash fxReqA⟩ (by decide) (by decide)).2
    ⟨"c1", "tenantA", "user", "u1", "status", "active", .FACT, .SUPERSEDED,
      none, ⟨["alice"], [], []⟩, "system", "crm", "kA", 10,
      "stet-api", "dev", "local"⟩ (by decide) (by decide)
  refine ⟨⟨⟨"tenantA", "kA", "c1", canonicalHash fxReqA⟩, by decide, rfl⟩, ?_⟩
  rw [happ]

/-- The only error an insert can raise is the storage uniqueness
violation, surfaced as ConcurrentWriteConflict. -/
theorem insertCorrection_error_eq {s : Store} {c : Correction} {e : ApiError}
    (h : insertCorrection s c = .error e) : e = .concurrentWriteConflict := by
  unfold insertCorrection at h
  split at h
  · rw [Except.error.injEq] at h
    exact h.symm
  · simp at h

/-- An ACTIVE correction of tenantA on field a. -/
def fxActiveA : Correction :=
  { fxFactName with
    correction_id := "ca", field_key := "a", idempotency_key := "ka0" }

/-- Store holding only fxActiveA. -/
def fxC5Store : Store := ⟨[fxActiveA], [], []⟩

/-- Request on a different field explicitly superseding fxActiveA. -/
def fxReqMismatch : CreateReq :=
  { fxReqA with
    field_key := "b", idempotency_key := "kM", supersedes := some "ca" }

/-- Request explicitly superseding an id that does not exist. -/
def fxReqGhost : CreateReq :=
  { fxReqA with
    idempotency_key := "kG", supersedes := some "ghost" }

/-- C5 counterexample: an absent supersede target fails with InvalidRequest
(the 400 with message Invalid supersedes target), not NotFound; and an
ACTIVE target whose field_key differs from the new correction's is accepted
(201, supersedes echoed), not rejected with InvalidRequest. -/
theorem supersede_validation_cex :
    createCorrection fxC5Store "tenantA" fxReqGhost "cg" 40 fxOrigin =
      .error (.invalidRequest "Invalid supersedes target") ∧
    fxReqMismatch.supersedes = some fxActiveA.correction_id ∧
    fxActiveA.status = .ACTIVE ∧
    fxActiveA.field_key ≠ fxReqMismatch.field_key ∧
    (createCorrection fxC5Store "tenantA" fxReqMismatch "cm" 40 fxOrigin).map
        (fun x => x.1) =
      .ok { correction_id := "cm", status := .ACTIVE, supersedes := some "ca",
            created_at := 40, httpCode := 201 } := by
  refine ⟨by decide, by decide, by decide, by decide, by decide⟩

/-- C5 amended: with an explicit supersedes id (no idempotency hit, valid
permissions), an absent target and a non-ACTIVE target both fail with
InvalidRequest (Invalid supersedes target) — NotFound is never raised —
and any ACTIVE target within the tenant is accepted with its id echoed as
supersedes, without any check that its subject or field_key match the new
correction's; such an accepted create can only fail through the storage
uniqueness constraint (ConcurrentWriteConflict). -/
theorem supersede_validation_behavior (s : Store) (t : String) (p : CreateReq)
    (nid : String) (now : Int) (org : Origin) (cid : String)
    (hsup : p.supersedes = some cid)
    (hperm : ¬(p.permissions.readers = [] ∧ p.permissions.scopes = []))
    (hidem : fetchIdem s t p.idempotency_key = none) :
    (fetchSupersedeTarget s t cid = none →
      createCorrection s t p nid now org =
        .error (.invalidRequest "Invalid supersedes target")) ∧
    (∀ tgt, fetchSupersedeTarget s t cid = some tgt → tgt.status ≠ .ACTIVE →
      createCorrection s t p nid now org =
        .error (.invalidRequest "Invalid supersedes target")) ∧
    (∀ tgt, fetchSupersedeTarget s t cid = some tgt → tgt.status = .ACTIVE →
      (∃ r s2, createCorrection s t p nid now org = .ok (r, s2) ∧
        r.supersedes = some tgt.correction_id) ∨
      createCorrection s t p nid now org = .error .concurrentWriteConflict) := by
  refine ⟨?_, ?_, ?_⟩
  · intro hnone
    simp only [createCorrection, if_neg hperm, hidem, hsup, hnone]
  · intro tgt htgt hst
    simp only [createCorrection, if_neg hperm, hidem, hsup, htgt]
    rw [if_neg hst]
  · intro tgt htgt hst
    simp only [createCorrection, if_neg hperm, hidem, hsup, htgt]
    rw [if_pos hst]
    dsimp only
    cases hins : insertCorrection (applySupersede s t (some tgt.correction_id))
        (newCorrectionRow t p nid now org (some tgt.correction_id)) with
    | error e =>
        right
        dsimp only
        rw [insertCorrection_error_eq hins]
    | ok s2 =>
        left
        dsimp only
        exact ⟨_, _, rfl, rfl⟩

/-- C5 amended witness: the concrete mismatched-field request is accepted
with the target's id echoed as supersedes. -/
theorem supersede_validation_behavior_witness :
    fxReqMismatch.supersedes = some "ca" ∧
    (∃ r s2, createCorrection fxC5Store "tenantA" fxReqMismatch "cm" 40 fxOrigin =
        .ok (r, s2) ∧ r.supersedes = some "ca") := by
  refine ⟨by decide, ?_⟩
  have h := (supersede_validation_behavior fxC5Store "tenantA" fxReqMismatch
      "cm" 40 fxOrigin "ca" (by decide) (by decide) (by decide)).2.2
    fxActiveA (by decide) (by decide)
  rcases h with ⟨r, s2, hok, hsup⟩ | hbad
  · exact ⟨r, s2, hok, hsup⟩
  · exact absurd hbad (by decide)

/-- The flip step preserves every column except status. -/
theorem flipRow_fields (t cid : String) (r : Correction) :
    (flipRow t cid r).correction_id = r.correction_id ∧
    (flipRow t cid r).tenant_id = r.tenant_id ∧
    (flipRow t cid r).subject_type = r.subject_type ∧
    (flipRow t cid r).subject_id = r.subject_id ∧
    (flipRow t cid r).field_key = r.field_key := by
  unfold flipRow
  split <;> exact ⟨rfl, rfl, rfl, rfl, rfl⟩

/-- A row still ACTIVE after the flip step was not the flip target and is
unchanged. -/
theorem flipRow_active {t cid : String} {r : Correction}
    (h : (flipRow t cid r).status = .ACTIVE) :
    flipRow t cid r = r ∧ ¬(r.tenant_id = t ∧ r.correction_id = cid) := by
  by_cases hc : r.tenant_id = t ∧ r.correction_id = cid
  · rw [flipRow, if_pos hc] at h
    simp at h
  · exact ⟨by rw [flipRow, if_neg hc], hc⟩

/-- The no-two-ACTIVE relation is symmetric. -/
theorem noTwoActive_symm : Symmetric NoTwoActive := by
  intro a b hab h1 h2 h3 h4 hb ha
  exact hab h1.symm h2.symm h3.symm h4.symm ha hb

/-- Flipping one row cannot create a new pair of ACTIVE rows. -/
theorem pairwise_flip (t cid : String) {l : List Correction}
    (h : l.Pairwise NoTwoActive) :
    (l.map (flipRow t cid)).Pairwise NoTwoActive := by
  rw [List.pairwise_map]
  refine h.imp ?_
  intro a b hab h1 h2 h3 h4 ha hb
  have ha2 := (flipRow_active ha).1
  have hb2 := (flipRow_active hb).1
  rw [ha2] at h1 h2 h3 h4 ha
  rw [hb2] at h1 h2 h3 h4 hb
  exact hab h1 h2 h3 h4 ha hb

/-- The conditional flip step preserves the invariant. -/
theorem applySupersede_pairwise (s : Store) (t : String) (o : Option String)
    (hu : uniqueActive s) :
    ((applySupersede s t o).corrections).Pairwise NoTwoActive := by
  cases o with
  | none => exact hu
  | some sid => exact pairwise_flip t sid hu

/-- A successful insert certifies there was no ACTIVE row of the same
tenant, subject and field already in the store. -/
theorem insertCorrection_ok_no_dup {s : Store} {c : Correction} {s2 : Store}
    (hok : insertCorrection s c = .ok s2) (hact : c.status = .ACTIVE) :
    ∀ r ∈ s.corrections, r.tenant_id = c.tenant_id →
      r.subject_type = c.subject_type → r.subject_id = c.subject_id →
      r.field_key = c.field_key → r.status ≠ .ACTIVE := by
  unfold insertCorrection at hok
  split at hok
  · simp at hok
  case _ hcond =>
    intro r hr h1 h2 h3 h4 h5
    apply hcond
    refine ⟨hact, ?_⟩
    rw [List.any_eq_true]
    refine ⟨r, ?_, by simp [h2, h3, h4, h5]⟩
    rw [tenantCorrections, List.mem_filter]
    exact ⟨hr, by simp [h1]⟩

/-- An insert whose key has no ACTIVE occupant succeeds and appends. -/
theorem insertCorrection_ok_of_no_dup {s : Store} {c : Correction}
    (h : ∀ r ∈ tenantCorrections s c.tenant_id,
      ¬(r.subject_type = c.subject_type ∧ r.subject_id = c.subject_id ∧
        r.field_key = c.field_key ∧ r.status = .ACTIVE)) :
    insertCorrection s c = .ok { s with corrections := s.corrections ++ [c] } := by
  rw [insertCorrection, if_neg]
  intro hc
  obtain ⟨-, hany⟩ := hc
  rw [List.any_eq_true] at hany
  obtain ⟨r, hr, hpr⟩ := hany
  exact h r hr (of_decide_eq_true hpr)

/-- C1: the empty store satisfies the one-ACTIVE-per-key invariant; every
successful create preserves it; and a create without explicit supersedes
that finds an existing ACTIVE correction for its (tenant, subject,
field_key) succeeds, flips that correction to SUPERSEDED in the resulting
store and returns its id as supersedes. -/
theorem active_uniqueness (s : Store) (t : String) (p : CreateReq)
    (nid : String) (now : Int) (org : Origin) :
    uniqueActive Store.empty ∧
    (∀ r s2, uniqueActive s → createCorrection s t p nid now org = .ok (r, s2) →
      uniqueActive s2) ∧
    (∀ ex, uniqueActive s →
      (∀ r0 ∈ s.corrections, r0.correction_id ≠ nid) →
      ¬(p.permissions.readers = [] ∧ p.permissions.scopes = []) →
      fetchIdem s t p.idempotency_key = none →
      p.supersedes = none →
      findActiveForField s t p.subject_type p.subject_id p.field_key = some ex →
      ∃ r s2, createCorrection s t p nid now org = .ok (r, s2) ∧
        r.supersedes = some ex.correction_id ∧
        ∀ c ∈ s2.corrections, c.tenant_id = t →
          c.correction_id = ex.correction_id → c.status = .SUPERSEDED) := by
  refine ⟨List.Pairwise.nil, ?_, ?_⟩
  · intro r s2 hu hok
    simp only [createCorrection] at hok
    split at hok
    · simp at hok
    · split at hok
      · split at hok
        · simp at hok
        · split at hok
          · simp at hok
          · rw [Except.ok.injEq, Prod.mk.injEq] at hok
            obtain ⟨-, h2⟩ := hok
            subst h2
            exact hu
      · split at hok
        · simp at hok
        · split at hok
          · simp at hok
          case _ s2x hins =>
            rw [Except.ok.injEq, Prod.mk.injEq] at hok
            obtain ⟨-, h2⟩ := hok
            subst h2
            have hparts := insertCorrection_ok_parts hins
            show List.Pairwise NoTwoActive _
            dsimp only
            rw [hparts.2.2, List.pairwise_append]
            refine ⟨applySupersede_pairwise s t _ hu, by simp, ?_⟩
            intro a ha b hb
            rw [List.mem_singleton] at hb
            subst hb
            intro h1 h2 h3 h4 haact hbact
            exact insertCorrection_ok_no_dup hins rfl a ha h1 h2 h3 h4 haact
  · intro ex hu hfresh hperm hidem hsup hfound
    have hpredmem : ex ∈ tenantCorrections s t :=
      List.mem_of_find?_eq_some hfound
    have hpred := List.find?_some hfound
    rw [decide_eq_true_eq] at hpred
    obtain ⟨hex1, hex2, hex3, hex4⟩ := hpred
    rw [tenantCorrections, List.mem_filter] at hpredmem
    have hexmem : ex ∈ s.corrections := hpredmem.1
    have hext : ex.tenant_id = t := of_decide_eq_true hpredmem.2
    have hins := insertCorrection_ok_of_no_dup
      (s := applySupersede s t (some ex.correction_id))
      (c := newCorrectionRow t p nid now org (some ex.correction_id)) ?nodup
    case nodup =>
      intro a ha hc
      obtain ⟨h1, h2, h3, h4⟩ := hc
      rw [tenantCorrections, List.mem_filter] at ha
      obtain ⟨hamem, hat⟩ := ha
      have hat2 : a.tenant_id = (newCorrectionRow t p nid now org
        (some ex.correction_id)).tenant_id := of_decide_eq_true hat
      have hamem2 : a ∈ s.corrections.map (flipRow t ex.correction_id) := hamem
      rw [List.mem_map] at hamem2
      obtain ⟨a0, ha0, haeq⟩ := hamem2
      rw [← haeq] at h4
      obtain ⟨haid, hncond⟩ := flipRow_active h4
      rw [haid] at haeq
      subst haeq
      have hat3 : a0.tenant_id = t := hat2
      have hnid : a0.correction_id ≠ ex.correction_id :=
        fun hcc => hncond ⟨hat3, hcc⟩
      by_cases haex : a0 = ex
      · exact hnid (by rw [haex])
      · have hR := hu.forall noTwoActive_symm ha0 hexmem haex
        rw [haid] at h4
        exact hR (hat3.trans hext.symm) (h1.trans hex1.symm)
          (h2.trans hex2.symm) (h3.trans hex3.symm) h4 hex4
    refine ⟨⟨nid, .ACTIVE, some ex.correction_id, now, 201⟩, ⟨(applySupersede s t (some ex.correction_id)).corrections ++ [newCorrectionRow t p nid now org (some ex.correction_id)], (applySupersede s t (some ex.correction_id)).idempotency ++ [⟨t, p.idempotency_key, nid, canonicalHash p⟩], (applySupersede s t (some ex.correction_id)).heartbeats⟩, ?_, rfl, ?_⟩
    · simp only [createCorrection, if_neg hperm, hidem, hsup, hfound,
        Option.map_some']
      rw [hins]
    · intro c hc hct hcid
      dsimp only at hc
      rw [List.mem_append] at hc
      cases hc with
      | inr hcr =>
          rw [List.mem_singleton] at hcr
          subst hcr
          exact absurd hcid.symm (hfresh ex hexmem)
      | inl hcl =>
          have hcl2 : c ∈ s.corrections.map (flipRow t ex.correction_id) := hcl
          rw [List.mem_map] at hcl2
          obtain ⟨c0, hc0, hceq⟩ := hcl2
          have hfields := flipRow_fields t ex.correction_id c0
          rw [hceq] at hfields
          have hcond : c0.tenant_id = t ∧ c0.correction_id = ex.correction_id :=
            ⟨hfields.2.1.symm.trans hct, hfields.1.symm.trans hcid⟩
          rw [← hceq, flipRow, if_pos hcond]

/-- C1 witness: on the concrete store holding one ACTIVE correction for
the field, the second create without explicit supersedes succeeds, echoes
the prior id as supersedes, and the prior correction ends SUPERSEDED. -/
theorem active_uniqueness_witness :
    uniqueActive fxReplayStore1 ∧
    (∃ r s2, createCorrection fxReplayStore1 "tenantA" fxReqB "c2" 20 fxOrigin =
        .ok (r, s2) ∧
      r.supersedes = some "c1" ∧
      ∀ c ∈ s2.corrections, c.tenant_id = "tenantA" →
        c.correction_id = "c1" → c.status = .SUPERSEDED) := by
  refine ⟨by decide, ?_⟩
  have h := (active_uniqueness fxReplayStore1 "tenantA" fxReqB "c2" 20
      fxOrigin).2.2
    ⟨"c1", "tenantA", "user", "u1", "status", "active", .FACT, .ACTIVE, none,
      ⟨["alice"], [], []⟩, "system", "crm", "kA", 10, "stet-api", "dev", "local"⟩
    (by decide) (by decide) (by decide) (by decide) (by decide) (by decide)
  obtain ⟨r, s2, hok, hsup, hflip⟩ := h
  exact ⟨r, s2, hok, hsup, hflip⟩

/-- Payload used to exercise the idempotent-replay fetch. -/
def fxReqReplay : CreateReq :=
  { fxReqA with
    idempotency_key := "kiso" }

/-- Idempotency record of tenantA pointing at correction id c9. -/
def fxIsoRecord : IdempotencyRecord :=
  ⟨"tenantA", "kiso", "c9", canonicalHash fxReqReplay⟩

/-- Store where no correction row carries id c9. -/
def fxIsoStore1 : Store := ⟨[], [fxIsoRecord], []⟩

/-- A correction row of tenantB carrying id c9. -/
def fxOtherRow : Correction :=
  { fxFactName with
    correction_id := "c9", tenant_id := "tenantB", idempotency_key := "kB9" }

/-- fxIsoStore1 plus one row belonging to tenantB only. -/
def fxIsoStore2 : Store := ⟨[fxOtherRow], [fxIsoRecord], []⟩

/-- C6 counterexample: the two stores agree on every tenantA row and differ
only in a row of tenantB, yet the same tenantA create behaves differently
on them (internal error against one, a 200 replay of tenantB's row against
the other), because the idempotent-replay fetch in main.py selects by
correction_id without a tenant_id clause. -/
theorem tenant_isolation_cex :
    tenantCorrections fxIsoStore1 "tenantA" = tenantCorrections fxIsoStore2 "tenantA" ∧
    tenantIdempotency fxIsoStore1 "tenantA" = tenantIdempotency fxIsoStore2 "tenantA" ∧
    tenantHeartbeats fxIsoStore1 "tenantA" = tenantHeartbeats fxIsoStore2 "tenantA" ∧
    createCorrection fxIsoStore1 "tenantA" fxReqReplay "cx" 99 fxOrigin =
      .error .internalError ∧
    (createCorrection fxIsoStore2 "tenantA" fxReqReplay "cx" 99 fxOrigin).map
        (fun x => x.1) =
      .ok ⟨"c9", .ACTIVE, none, 1, 200⟩ := by
  refine ⟨by decide, by decide, by decide, by decide, by decide⟩

/-- Filtering a tenant out of a flipped table is flipping the filtered
tenant rows: the flip step preserves tenant_id. -/
theorem tenantCorrections_flip (s : Store) (t sid : String) :
    tenantCorrections (flipToSuperseded s t sid) t =
      (tenantCorrections s t).map (flipRow t sid) := by
  show (s.corrections.map (flipRow t sid)).filter _ = _
  rw [List.filter_map]
  congr 1
  apply List.filter_congr
  intro r hr
  simp [Function.comp, (flipRow_fields t sid r).2.1]

/-- The outcome shape of an insert depends only on the tenant's rows: an
error transfers, and success transfers to success. -/
theorem insertCorrection_transfer {sA sB : Store} {c : Correction}
    (h : tenantCorrections sA c.tenant_id = tenantCorrections sB c.tenant_id) :
    (∀ e, insertCorrection sB c = .error e → insertCorrection sA c = .error e) ∧
    (∀ s2, insertCorrection sB c = .ok s2 →
      ∃ s2a, insertCorrection sA c = .ok s2a) := by
  unfold insertCorrection
  rw [h]
  split
  · exact ⟨fun e he => he, fun s2 hs2 => by simp at hs2⟩
  · exact ⟨fun e he => by simp at he, fun s2 hs2 => ⟨_, rfl⟩⟩

/-- The first row with a given unique value of a field is determined by
membership when the predicate pins the element down to one value. -/
theorem find?_eq_some_unique {α : Type} {p : α → Bool} {r : α} :
    ∀ {l : List α}, r ∈ l → p r = true → (∀ a ∈ l, p a = true → a = r) →
      l.find? p = some r := by
  intro l
  induction l with
  | nil => intro h; simp at h
  | cons x xs ih =>
      intro hr hpr huniq
      cases hx : p x with
      | true =>
          rw [List.find?_cons_of_pos _ hx, huniq x (List.mem_cons_self x xs) hx]
      | false =>
          rw [List.find?_cons_of_neg _ (by simp [hx])]
          have hrx : r ∈ xs := by
            cases List.mem_cons.mp hr with
            | inl he =>
                subst he
                exact absurd hpr (by simp [hx])
            | inr hmem => exact hmem
          exact ih hrx hpr (fun a ha hpa => huniq a (List.mem_cons_of_mem x ha) hpa)

/-- Under referential well-formedness, the unscoped replay fetch returns
the same row on two stores agreeing on the tenant's rows, whenever the id
comes from one of the tenant's idempotency records. -/
theorem fetchById_wf_agree {t : String} {s1 s2 : Store}
    (hC : tenantCorrections s1 t = tenantCorrections s2 t)
    (hw1 : wfStore t s1) (hw2 : wfStore t s2)
    {i : IdempotencyRecord} (hi : i ∈ s1.idempotency) (hit : i.tenant_id = t) :
    fetchCorrectionById s1 i.correction_id = fetchCorrectionById s2 i.correction_id := by
  obtain ⟨r, hr, hrid, hrt⟩ := hw1.2 i hi hit
  have hr1 : r ∈ tenantCorrections s1 t := by
    rw [tenantCorrections, List.mem_filter]
    exact ⟨hr, by simp [hrt]⟩
  have hr2 : r ∈ s2.corrections := by
    have hmem := hC ▸ hr1
    rw [tenantCorrections, List.mem_filter] at hmem
    exact hmem.1
  have h1 : fetchCorrectionById s1 i.correction_id = some r :=
    find?_eq_some_unique hr (by simp [hrid])
      (fun a ha hpa => hw1.1 a ha r hr ((of_decide_eq_true hpa).trans hrid.symm))
  have h2 : fetchCorrectionById s2 i.correction_id = some r :=
    find?_eq_some_unique hr2 (by simp [hrid])
      (fun a ha hpa => hw2.1 a ha r hr2 ((of_decide_eq_true hpa).trans hrid.symm))
  rw [h1, h2]

/-- C6 amended: every query of the core except the idempotent-replay fetch
is scoped by tenant_id; the replay fetch selects by correction_id alone and
crosses tenants only through a dangling or cross-tenant idempotency
reference.  Under referential well-formedness (correction ids identify rows
uniquely and each of the tenant's idempotency records points at a
correction of that tenant — both maintained by the create path), two stores
agreeing on a tenant's corrections, idempotency records and heartbeats give
identical responses to every operation of that tenant. -/
theorem tenant_isolation_equiv (t : String) (s1 s2 : Store)
    (hC : tenantCorrections s1 t = tenantCorrections s2 t)
    (hI : tenantIdempotency s1 t = tenantIdempotency s2 t)
    (hH : tenantHeartbeats s1 t = tenantHeartbeats s2 t)
    (hw1 : wfStore t s1) (hw2 : wfStore t s2) :
    (∀ p nid now org,
      (createCorrection s1 t p nid now org).map (fun x => x.1) =
        (createCorrection s2 t p nid now org).map (fun x => x.1)) ∧
    (∀ stype sid rid scopes fks q,
      getFacts s1 t stype sid rid scopes fks q =
        getFacts s2 t stype sid rid scopes fks q) ∧
    (∀ stype sid rid scopes fk incl,
      getHistory s1 t stype sid rid scopes fk incl =
        getHistory s2 t stype sid rid scopes fk incl) ∧
    (∀ envV envE p now,
      (recordHeartbeat envV envE s1 t p now).map (fun _ => ()) =
        (recordHeartbeat envV envE s2 t p now).map (fun _ => ())) ∧
    (∀ q now iv gm,
      statusSystems s1 t q now iv gm = statusSystems s2 t q now iv gm) ∧
    (∀ q now iv gm,
      escalationResponse s1 t q now iv gm = escalationResponse s2 t q now iv gm) := by
  have hlat : ∀ sid, latestHeartbeat s1 t sid = latestHeartbeat s2 t sid := by
    intro sid
    rw [latestHeartbeat, latestHeartbeat, hH]
  have hdrift : ∀ q now thr,
      driftSystems s1 t q now thr = driftSystems s2 t q now thr := by
    intro q now thr
    cases q with
    | some sid => simp only [driftSystems, hlat]
    | none => simp only [driftSystems, hH, hlat]
  have hflipC : ∀ o, tenantCorrections (applySupersede s1 t o) t =
      tenantCorrections (applySupersede s2 t o) t := by
    intro o
    cases o with
    | none => exact hC
    | some sid =>
        simp only [applySupersede, tenantCorrections_flip]
        rw [hC]
  refine ⟨?_, ?_, ?_, ?_, ?_, ?_⟩
  · intro p nid now org
    have hidemEq : fetchIdem s1 t p.idempotency_key =
        fetchIdem s2 t p.idempotency_key := by
      rw [fetchIdem, fetchIdem, hI]
    simp only [createCorrection]
    by_cases hperm : p.permissions.readers = [] ∧ p.permissions.scopes = []
    · rw [if_pos hperm, if_pos hperm]
    · rw [if_neg hperm, if_neg hperm, hidemEq]
      cases hfi : fetchIdem s2 t p.idempotency_key with
      | some idem =>
          simp only [hfi]
          by_cases hhash : idem.payload_hash ≠ canonicalHash p
          · rw [if_pos hhash, if_pos hhash]
          · rw [if_neg hhash, if_neg hhash]
            have hmem2 : idem ∈ tenantIdempotency s2 t :=
              List.mem_of_find?_eq_some hfi
            have hmem1 : idem ∈ s1.idempotency ∧ idem.tenant_id = t := by
              have hmem := hI ▸ hmem2
              rw [tenantIdempotency, List.mem_filter] at hmem
              exact ⟨hmem.1, of_decide_eq_true hmem.2⟩
            rw [fetchById_wf_agree hC hw1 hw2 hmem1.1 hmem1.2]
            cases hfc : fetchCorrectionById s2 idem.correction_id with
            | none => simp only [hfc]
            | some ex => simp only [hfc, Except.map]
      | none =>
          simp only [hfi]
          have htgtEq : ∀ cid, fetchSupersedeTarget s1 t cid =
              fetchSupersedeTarget s2 t cid := by
            intro cid
            rw [fetchSupersedeTarget, fetchSupersedeTarget, hC]
          have hactEq : findActiveForField s1 t p.subject_type p.subject_id
              p.field_key = findActiveForField s2 t p.subject_type p.subject_id
              p.field_key := by
            rw [findActiveForField, findActiveForField, hC]
          have htr : (match p.supersedes with
              | some cid =>
                  match fetchSupersedeTarget s1 t cid with
                  | none => Except.error (ApiError.invalidRequest "Invalid supersedes target")
                  | some tgt =>
                      if tgt.status = CorrectionStatus.ACTIVE
                      then Except.ok (some tgt.correction_id)
                      else Except.error (ApiError.invalidRequest "Invalid supersedes target")
              | none => Except.ok ((findActiveForField s1 t p.subject_type
                  p.subject_id p.field_key).map (fun r : Correction => r.correction_id))) =
              (match p.supersedes with
              | some cid =>
                  match fetchSupersedeTarget s2 t cid with
                  | none => Except.error (ApiError.invalidRequest "Invalid supersedes target")
                  | some tgt =>
                      if tgt.status = CorrectionStatus.ACTIVE
                      then Except.ok (some tgt.correction_id)
                      else Except.error (ApiError.invalidRequest "Invalid supersedes target")
              | none => Except.ok ((findActiveForField s2 t p.subject_type
                  p.subject_id p.field_key).map (fun r : Correction => r.correction_id))) := by
            cases p.supersedes with
            | some cid => simp only [htgtEq cid]
            | none => simp only [hactEq]
          rw [htr]
          cases hres : (match p.supersedes with
              | some cid =>
                  match fetchSupersedeTarget s2 t cid with
                  | none => Except.error (ApiError.invalidRequest "Invalid supersedes target")
                  | some tgt =>
                      if tgt.status = CorrectionStatus.ACTIVE
                      then Except.ok (some tgt.correction_id)
                      else Except.error (ApiError.invalidRequest "Invalid supersedes target")
              | none => Except.ok ((findActiveForField s2 t p.subject_type
                  p.subject_id p.field_key).map (fun r : Correction => r.correction_id))) with
          | error e => simp only [hres]
          | ok sid =>
              simp only [hres]
              cases hib : insertCorrection (applySupersede s2 t sid)
                  (newCorrectionRow t p nid now org sid) with
              | error e =>
                  have hia := (insertCorrection_transfer (hflipC sid)).1 e hib
                  simp only [hib, hia]
              | ok s2x =>
                  obtain ⟨s1x, hia⟩ :=
                    (insertCorrection_transfer (hflipC sid)).2 s2x hib
                  simp only [hib, hia, Except.map]
  · intro stype sid rid scopes fks q
    simp only [getFacts]
    rw [hC]
  · intro stype sid rid scopes fk incl
    simp only [getHistory]
    rw [hC]
  · intro envV envE p now
    simp only [recordHeartbeat]
    split <;> rfl
  · intro q now iv gm
    simp only [statusSystems, hdrift]
  · intro q now iv gm
    simp only [escalationResponse, hdrift]

/-- A second idempotency record belonging to tenantB only. -/
def fxIsoRecB : IdempotencyRecord := ⟨"tenantB", "kx", "c9", "h"⟩

/-- A well-formed store for tenantA: one correction, one idempotency record
pointing at it. -/
def fxIsoWf1 : Store := ⟨[fxFactName], [⟨"tenantA", "kn", "cn", "h0"⟩], []⟩

/-- The same tenantA rows plus rows belonging to tenantB only. -/
def fxIsoWf2 : Store :=
  ⟨[fxFactName, fxOtherRow], [⟨"tenantA", "kn", "cn", "h0"⟩, fxIsoRecB],
   [⟨"tenantB", "sysB", 1, 0, "stet-api", "dev", "local"⟩]⟩

/-- C6 amended witness: the two concrete well-formed stores agree on
tenantA and give identical create responses and facts. -/
theorem tenant_isolation_equiv_witness :
    wfStore "tenantA" fxIsoWf1 ∧ wfStore "tenantA" fxIsoWf2 ∧
    (createCorrection fxIsoWf1 "tenantA" fxReqA "cz" 50 fxOrigin).map
        (fun x => x.1) =
      (createCorrection fxIsoWf2 "tenantA" fxReqA "cz" 50 fxOrigin).map
        (fun x => x.1) ∧
    getFacts fxIsoWf1 "tenantA" "user" "u1" "alice" none none none =
      getFacts fxIsoWf2 "tenantA" "user" "u1" "alice" none none none := by
  have h := tenant_isolation_equiv "tenantA" fxIsoWf1 fxIsoWf2
    (by decide) (by decide) (by decide) (by decide) (by decide)
  exact ⟨by decide, by decide, h.1 fxReqA "cz" 50 fxOrigin,
    h.2.1 "user" "u1" "alice" none none none⟩

end Stet
